import Mathlib

/-!
Shallow embedding of the `HlsPlayer` React component of `react-ts-hls-player`
(source: `src/index.tsx`, the only implementation file).

The component binds one hls.js Streaming Engine instance to one `<video>`
Playback Surface.  We embed:

* the JavaScript object-literal / JSX attribute semantics used for
  configuration merging (`{ enableWorker: true, lowLatencyMode: false,
  ...hlsConfig }`) and for the rendered element
  (`<video ref controls={true} {...props} />`): an ordered entry list where a
  later binding of a key overrides an earlier one (`jsLookup`);
* the mutable state of one mounted component (`PState`): the stored engine
  reference `hlsRef.current`, the active ExternalHandle write target
  (the externally supplied `playerRef` when given, otherwise
  `internalPlayerRef` — the source writes to exactly one of the two per
  cycle, so one container models the active target), a fresh-id counter for
  engine instances, and the surface's `src` attribute;
* the operations of the main effect: `initHls`, `destroyHls`, the effect
  cleanup, the second (video-ref tracking) effect, and the event handlers
  registered on the engine.  Each operation returns the new state together
  with the list of observable actions (`Act`) it performs, in order:
  engine construction/destruction, attach/load commands, callback
  invocations, console logging, and the autoplay play attempt.

Engine instances are identified by natural numbers drawn from the state's
counter, so that distinct constructions are distinct instances.
-/

namespace HlsPlayerModel

/-- Attribute / configuration value (JS values restricted to the shapes the
component manipulates). -/
inductive Val
  | bool : Bool → Val
  | num : Int → Val
  | str : String → Val
deriving DecidableEq, Repr

/-- Ordered JS object-literal lookup: entries are listed in evaluation order
and a later binding of a key overrides an earlier one, exactly as in a JS
object literal with spreads and in JSX attribute lists. -/
def jsLookup (entries : List (String × Val)) (k : String) : Option Val :=
  entries.foldl (fun acc p => if p.1 = k then some p.2 else acc) none

/-- Error categories of an engine error event (`Hls.ErrorTypes`): the switch
in the source distinguishes `NETWORK_ERROR`, `MEDIA_ERROR`, and a default. -/
inductive ErrType
  | network
  | media
  | other
deriving DecidableEq, Repr

/-- Observable actions of the component, in the order performed. -/
inductive Act
  | construct : Nat → List (String × Val) → Act
  | destroy : Nat → Act
  | attachMedia : Nat → Act
  | loadSource : Nat → String → Act
  | callInit : Nat → Act
  | callReady : Nat → Act
  | setVideoSrc : String → Act
  | logCapabilityError : Act
  | playAttempt : Act
  | logAutoplayError : String → Act
  | callManifestParsed : Nat → Act
  | callMediaAttached : Act
  | callError : Bool → ErrType → Nat → Act
  | callLevelSwitched : Int → Act
  | startLoad : Nat → Act
  | recoverMediaError : Nat → Act
deriving DecidableEq, Repr

/-- The ExternalHandle shape (`HlsPlayerRef`): `{ video, hls }`, each field
possibly absent (`null`).  This is the active write target: the externally
supplied `playerRef` when one was given, otherwise the internal container. -/
structure Handle where
  video : Option Unit
  hls : Option Nat
deriving DecidableEq, Repr

/-- Mutable state of one mounted component. -/
structure PState where
  /-- the stored engine reference `hlsRef.current` -/
  hlsRef : Option Nat
  /-- the active ExternalHandle write target -/
  handle : Handle
  /-- fresh-id counter for engine instances -/
  nextId : Nat
  /-- the surface's `src` attribute (set directly in the native branch) -/
  videoSrc : Option String
deriving DecidableEq, Repr

/-- Inputs of one bind cycle: the environment's capabilities and the props
the main effect closes over. -/
structure Env where
  /-- `videoRef.current` is non-null -/
  videoPresent : Bool
  /-- `Hls.isSupported()` -/
  hlsSupported : Bool
  /-- `videoRef.current.canPlayType("application/vnd.apple.mpegurl")` -/
  canPlayNative : Bool
  src : String
  autoPlay : Bool
  config : List (String × Val)
deriving DecidableEq, Repr

/-- Fixed defaults of the engine configuration object literal:
`enableWorker: true, lowLatencyMode: false`. -/
def defaultEntries : List (String × Val) :=
  [("enableWorker", Val.bool true), ("lowLatencyMode", Val.bool false)]

/-- The configuration object passed to `new Hls({...})`: the literal lists
the defaults first, then spreads the caller's `hlsConfig`, so caller entries
come later and override per key. -/
def mergeConfig (cfg : List (String × Val)) : List (String × Val) :=
  defaultEntries ++ cfg

/-- The attribute list of the rendered element
`<video ref={videoRef} controls={true} {...props} />`: `controls={true}`
first, then the spread of the pass-through props. -/
def renderAttrs (props : List (String × Val)) : List (String × Val) :=
  ("controls", Val.bool true) :: props

/-- `destroyHls`: if an engine reference is stored, destroy the engine and
clear the reference; otherwise do nothing. -/
def destroyHls (st : PState) : PState × List Act :=
  match st.hlsRef with
  | some id => ({ st with hlsRef := none }, [Act.destroy id])
  | none => (st, [])

/-- `initHls`: the body of the main effect.  With a surface present and
`Hls.isSupported()`, construct an engine with the merged configuration,
store it, populate the handle with surface and engine, attach media, load
the source, and invoke the init and ready callbacks.  Otherwise fall back to
native playback by assigning the source URL to the surface, or log a
capability error. -/
def initHls (env : Env) (st : PState) : PState × List Act :=
  if env.videoPresent then
    if env.hlsSupported then
      let id := st.nextId
      ({ hlsRef := some id
         handle := { video := some (), hls := some id }
         nextId := id + 1
         videoSrc := st.videoSrc },
       [Act.construct id (mergeConfig env.config),
        Act.attachMedia id,
        Act.loadSource id env.src,
        Act.callInit id,
        Act.callReady id])
    else if env.canPlayNative then
      ({ st with videoSrc := some env.src }, [Act.setVideoSrc env.src])
    else
      (st, [Act.logCapabilityError])
  else (st, [])

/-- The cleanup function returned by the main effect: `destroyHls()`, then
reset the active handle to `{ video: null, hls: null }`. -/
def cleanup (st : PState) : PState × List Act :=
  let r := destroyHls st
  ({ r.1 with handle := { video := none, hls := none } }, r.2)

/-- The second effect (video-ref tracking): if the surface is present,
overwrite the handle's `video` field with it, keeping the `hls` field
(`{ ...playerRef.current, video: videoRef.current }`). -/
def videoRefEffect (videoPresent : Bool) (st : PState) : PState :=
  if videoPresent then
    { st with handle := { st.handle with video := some () } }
  else st

/-- One full mount: the main effect body runs first (it is declared first),
then the video-ref tracking effect. -/
def mountCycle (env : Env) (st : PState) : PState × List Act :=
  let r := initHls env st
  (videoRefEffect env.videoPresent r.1, r.2)

/-- The `Hls.Events.ERROR` handler, invoked with the closed-over engine
`hls`: on a fatal error switch on the category (network → `startLoad`,
media → `recoverMediaError`, default → `destroyHls`), then forward the event
and payload via `onHlsError` unconditionally. -/
def onErrorEvent (hls : Nat) (fatal : Bool) (e : ErrType) (d : Nat)
    (st : PState) : PState × List Act :=
  let r : PState × List Act :=
    if fatal then
      match e with
      | ErrType.network => (st, [Act.startLoad hls])
      | ErrType.media => (st, [Act.recoverMediaError hls])
      | ErrType.other => destroyHls st
    else (st, [])
  (r.1, r.2 ++ [Act.callError fatal e d])

/-- The `Hls.Events.MANIFEST_PARSED` handler: if `autoPlay` is set and the
surface is present, attempt `play()`; a rejection from the environment is
passed to `.catch`, which logs it (`playResult` models the environment's
answer to the play attempt).  Then forward the payload via
`onHlsManifestParsed` unconditionally.  The handler is total: it returns an
action list for every input, so no rejection propagates out. -/
def onManifestParsed (autoPlay videoPresent : Bool)
    (playResult : Except String Unit) (d : Nat) : List Act :=
  (if autoPlay then
    if videoPresent then
      Act.playAttempt ::
        (match playResult with
         | Except.error msg => [Act.logAutoplayError msg]
         | Except.ok _ => [])
    else []
  else []) ++ [Act.callManifestParsed d]

/-- Rebind triggers of the main effect: a change to any dependency
(`src`, `autoPlay`, `hlsConfig`, any callback identity, `playerRef`) reruns
the effect — previous cleanup first, then `initHls` — and unmount runs the
cleanup alone. -/
inductive Trigger
  | rebind : Env → Trigger
  | unmount : Trigger
deriving DecidableEq, Repr

/-- One lifecycle transition. -/
def step (st : PState) : Trigger → PState × List Act
  | Trigger.rebind env =>
    let r1 := cleanup st
    let r2 := initHls env r1.1
    (r2.1, r1.2 ++ r2.2)
  | Trigger.unmount => cleanup st

/-- A run of lifecycle transitions, accumulating the action trace. -/
def run (st : PState) : List Trigger → PState × List Act
  | [] => (st, [])
  | t :: ts =>
    let r1 := step st t
    let r2 := run r1.1 ts
    (r2.1, r1.2 ++ r2.2)

/-- State of a freshly mounted component: no engine, handle absent/absent. -/
def initState : PState :=
  { hlsRef := none
    handle := { video := none, hls := none }
    nextId := 0
    videoSrc := none }

/-- Live-engine accounting over a trace: `construct` adds an instance,
`destroy` removes it; every other action leaves the live set unchanged. -/
def liveStep (l : List Nat) : Act → List Nat
  | Act.construct n _ => l ++ [n]
  | Act.destroy n => l.erase n
  | _ => l

/-- Live engine instances after a trace. -/
def liveAfter (tr : List Act) : List Nat :=
  tr.foldl liveStep []

/-- Recovery policy exactly as the specification's table states it, keyed on
the fatal flag and the category; used to compare the source's error handler
against the spec. -/
def specRecovery (hls : Nat) (fatal : Bool) (e : ErrType) : List Act :=
  if fatal then
    match e with
    | ErrType.network => [Act.startLoad hls]
    | ErrType.media => [Act.recoverMediaError hls]
    | ErrType.other => [Act.destroy hls]
  else []

/-- Every prefix of the trace, folded from the start list `s`, keeps the
live-engine list at length at most one. -/
def allBounded (s : List Nat) : List Act → Prop
  | [] => s.length ≤ 1
  | a :: tr => s.length ≤ 1 ∧ allBounded (liveStep s a) tr

/-- Environment with software streaming supported. -/
def envA : Env :=
  { videoPresent := true
    hlsSupported := true
    canPlayNative := false
    src := "a.m3u8"
    autoPlay := false
    config := [] }

/-- Environment with only native playback supported. -/
def envNative : Env :=
  { videoPresent := true
    hlsSupported := false
    canPlayNative := true
    src := "a.m3u8"
    autoPlay := false
    config := [] }

/-- Environment with neither software nor native playback supported. -/
def envU : Env :=
  { videoPresent := true
    hlsSupported := false
    canPlayNative := false
    src := "a.m3u8"
    autoPlay := false
    config := [] }

/-- A state in the software-engine branch: engine 0 live, handle populated. -/
def stBound : PState :=
  { hlsRef := some 0
    handle := { video := some (), hls := some 0 }
    nextId := 1
    videoSrc := none }

lemma jsLookup_foldl (b : List (String × Val)) (k : String) (s : Option Val) :
    b.foldl (fun acc p => if p.1 = k then some p.2 else acc) s =
      match jsLookup b k with
      | some v => some v
      | none => s := by
  induction b generalizing s with
  | nil => simp [jsLookup]
  | cons p bs ih =>
    have h2 : jsLookup (p :: bs) k =
        match jsLookup bs k with
        | some v => some v
        | none => if p.1 = k then some p.2 else none := by
      simp only [jsLookup, List.foldl_cons]
      rw [show (if p.1 = k then some p.2 else none) =
            ((fun acc q => if q.1 = k then some q.2 else acc) none p) from rfl]
      exact ih _
    simp only [List.foldl_cons]
    rw [ih _, h2]
    cases hb : jsLookup bs k with
    | some v => rfl
    | none => by_cases hp : p.1 = k <;> simp [hp]

lemma jsLookup_append (a b : List (String × Val)) (k : String) :
    jsLookup (a ++ b) k =
      match jsLookup b k with
      | some v => some v
      | none => jsLookup a k := by
  simp only [jsLookup, List.foldl_append]
  exact jsLookup_foldl b k _

lemma isPrefix_append_cases {α : Type} (p a b : List α) (h : p <+: a ++ b) :
    p <+: a ∨ ∃ q, q <+: b ∧ p = a ++ q := by
  induction a generalizing p with
  | nil => exact Or.inr ⟨p, by simpa using h, by simp⟩
  | cons x a ih =>
    cases p with
    | nil => exact Or.inl ⟨x :: a, rfl⟩
    | cons y p =>
      obtain ⟨t, ht⟩ := h
      simp only [List.cons_append] at ht
      injection ht with h1 h2
      subst h1
      rcases ih p ⟨t, h2⟩ with hp | ⟨q, hq, rfl⟩
      · obtain ⟨u, hu⟩ := hp
        exact Or.inl ⟨u, by simp [← hu]⟩
      · exact Or.inr ⟨q, hq, by simp⟩

lemma allBounded_isPrefix : ∀ (tr : List Act) (s : List Nat) (p : List Act),
    allBounded s tr → p <+: tr → (p.foldl liveStep s).length ≤ 1 := by
  intro tr
  induction tr with
  | nil =>
    intro s p hb hp
    obtain ⟨t, ht⟩ := hp
    obtain ⟨rfl, rfl⟩ := List.append_eq_nil.mp ht
    simpa [allBounded] using hb
  | cons a tr ih =>
    intro s p hb hp
    simp only [allBounded] at hb
    cases p with
    | nil => simpa using hb.1
    | cons y p =>
      obtain ⟨t, ht⟩ := hp
      simp only [List.cons_append] at ht
      injection ht with h1 h2
      subst h1
      simpa using ih (liveStep s y) p hb.2 ⟨t, h2⟩

lemma step_allBounded (st : PState) (t : Trigger) :
    allBounded st.hlsRef.toList (step st t).2 := by
  cases t with
  | unmount =>
    cases h : st.hlsRef with
    | none => simp [step, cleanup, destroyHls, h, allBounded]
    | some e =>
      simp [step, cleanup, destroyHls, h, allBounded, liveStep]
  | rebind env =>
    cases h : st.hlsRef with
    | none =>
      by_cases h1 : env.videoPresent <;> by_cases h2 : env.hlsSupported <;>
        by_cases h3 : env.canPlayNative <;>
          simp [step, cleanup, destroyHls, initHls, h, h1, h2, h3,
            allBounded, liveStep]
    | some e =>
      by_cases h1 : env.videoPresent <;> by_cases h2 : env.hlsSupported <;>
        by_cases h3 : env.canPlayNative <;>
          simp [step, cleanup, destroyHls, initHls, h, h1, h2, h3,
            allBounded, liveStep]

lemma step_liveFold (st : PState) (t : Trigger) :
    (step st t).2.foldl liveStep st.hlsRef.toList =
      (step st t).1.hlsRef.toList := by
  cases t with
  | unmount =>
    cases h : st.hlsRef with
    | none => simp [step, cleanup, destroyHls, h]
    | some e => simp [step, cleanup, destroyHls, h, liveStep]
  | rebind env =>
    cases h : st.hlsRef with
    | none =>
      by_cases h1 : env.videoPresent <;> by_cases h2 : env.hlsSupported <;>
        by_cases h3 : env.canPlayNative <;>
          simp [step, cleanup, destroyHls, initHls, h, h1, h2, h3, liveStep]
    | some e =>
      by_cases h1 : env.videoPresent <;> by_cases h2 : env.hlsSupported <;>
        by_cases h3 : env.canPlayNative <;>
          simp [step, cleanup, destroyHls, initHls, h, h1, h2, h3, liveStep]

lemma run_bounded : ∀ (ts : List Trigger) (st : PState) (p : List Act),
    p <+: (run st ts).2 → (p.foldl liveStep st.hlsRef.toList).length ≤ 1 := by
  intro ts
  induction ts with
  | nil =>
    intro st p hp
    obtain ⟨t, ht⟩ := hp
    obtain ⟨rfl, rfl⟩ := List.append_eq_nil.mp (by simpa [run] using ht)
    cases st.hlsRef <;> simp
  | cons t ts ih =>
    intro st p hp
    have hp' : p <+: (step st t).2 ++ (run (step st t).1 ts).2 := by
      simpa [run] using hp
    rcases isPrefix_append_cases p _ _ hp' with hc | ⟨q, hq, rfl⟩
    · exact allBounded_isPrefix _ _ _ (step_allBounded st t) hc
    · rw [List.foldl_append, step_liveFold]
      exact ih (step st t).1 q hq

/-- C1: for every sequence of bind/rebind/unmount transitions, at most one
live engine instance exists at every observation point of the trace; and
whenever a trigger fires while an engine instance exists, the very first
action of the transition is the destroy of that instance, and no further
destroy occurs in the transition, so exactly one destroy on it is issued
before any new engine instance is constructed. -/
theorem C1_at_most_one_live_engine (ts : List Trigger) (p : List Act)
    (hp : p <+: (run initState ts).2) :
    (liveAfter p).length ≤ 1 ∧
    ∀ (st : PState) (t : Trigger) (e : Nat), st.hlsRef = some e →
      (step st t).2.head? = some (Act.destroy e) ∧
      ∀ n, Act.destroy n ∉ (step st t).2.tail := by
  constructor
  · simpa [initState, liveAfter] using run_bounded ts initState p hp
  · intro st t e he
    cases t with
    | unmount =>
      constructor <;> simp [step, cleanup, destroyHls, he]
    | rebind env =>
      constructor
      · simp [step, cleanup, destroyHls, he]
      · intro n
        by_cases h1 : env.videoPresent <;> by_cases h2 : env.hlsSupported <;>
          by_cases h3 : env.canPlayNative <;>
            simp [step, cleanup, destroyHls, initHls, he, h1, h2, h3]

/-- Witness for C1 at a concrete run: one rebind with software support. -/
theorem C1_at_most_one_live_engine_witness :
    ([Act.construct 0 (mergeConfig [])] <+: (run initState [Trigger.rebind envA]).2) ∧
    (liveAfter [Act.construct 0 (mergeConfig [])]).length ≤ 1 := by
  have h : [Act.construct 0 (mergeConfig [])] <+: (run initState [Trigger.rebind envA]).2 :=
    ⟨[Act.attachMedia 0, Act.loadSource 0 "a.m3u8", Act.callInit 0, Act.callReady 0],
      by decide⟩
  exact ⟨h, (C1_at_most_one_live_engine [Trigger.rebind envA] _ h).1⟩

/-- C2: every engine error event produces exactly the spec's recovery
actions for its fatal flag and category, followed by exactly one invocation
of the error callback with the original event classification and payload:
the policy runs once, before the callback, and the callback always fires. -/
theorem C2_error_policy_order (hls : Nat) (fatal : Bool) (e : ErrType) (d : Nat)
    (st : PState) (h : st.hlsRef = some hls) :
    (onErrorEvent hls fatal e d st).2 =
      specRecovery hls fatal e ++ [Act.callError fatal e d] := by
  cases fatal <;> cases e <;> simp [onErrorEvent, specRecovery, destroyHls, h]

/-- Witness for C2 at a concrete fatal network error. -/
theorem C2_error_policy_order_witness :
    stBound.hlsRef = some 0 ∧
    (onErrorEvent 0 true ErrType.network 7 stBound).2 =
      specRecovery 0 true ErrType.network ++ [Act.callError true ErrType.network 7] :=
  ⟨rfl, C2_error_policy_order 0 true ErrType.network 7 stBound rfl⟩

/-- C3 fails on the code: after a fatal error of a category that is neither
network nor media, the engine is destroyed but the ExternalHandle is NOT
reset — at the point the error callback fires it still holds the old
surface and engine references. -/
theorem C3_handle_not_reset_counterexample :
    (onErrorEvent 0 true ErrType.other 7 stBound).2.getLast? =
      some (Act.callError true ErrType.other 7) ∧
    (onErrorEvent 0 true ErrType.other 7 stBound).1.handle =
      { video := some (), hls := some 0 } ∧
    ({ video := some (), hls := some 0 } : Handle) ≠
      { video := none, hls := none } := by
  decide

/-- C3 amended: on a fatal error of a category neither network nor media,
the engine instance is destroyed and the stored engine reference cleared
before the error callback fires, but the ExternalHandle is left unchanged
(it is only reset by the effect cleanup). -/
theorem C3_destroy_before_error_callback (hls : Nat) (d : Nat) (st : PState)
    (h : st.hlsRef = some hls) :
    (onErrorEvent hls true ErrType.other d st).2 =
      [Act.destroy hls, Act.callError true ErrType.other d] ∧
    (onErrorEvent hls true ErrType.other d st).1.hlsRef = none ∧
    (onErrorEvent hls true ErrType.other d st).1.handle = st.handle := by
  simp [onErrorEvent, destroyHls, h]

/-- Witness for the amended C3 at a concrete state. -/
theorem C3_destroy_before_error_callback_witness :
    stBound.hlsRef = some 0 ∧
    (onErrorEvent 0 true ErrType.other 9 stBound).2 =
      [Act.destroy 0, Act.callError true ErrType.other 9] :=
  ⟨rfl, (C3_destroy_before_error_callback 0 9 stBound rfl).1⟩

/-- C4: the effect cleanup always resets the active ExternalHandle target to
absent/absent, whatever branch was taken at bind time (the handle reset is
unconditional on the state); if an engine instance exists it is destroyed
and the stored reference cleared, otherwise no destroy is issued. -/
theorem C4_teardown_resets_handle (st : PState) :
    (cleanup st).1.handle = { video := none, hls := none } ∧
    (cleanup st).1.hlsRef = none ∧
    (∀ e, st.hlsRef = some e → (cleanup st).2 = [Act.destroy e]) ∧
    (st.hlsRef = none → (cleanup st).2 = []) := by
  cases h : st.hlsRef <;> simp [cleanup, destroyHls, h]

/-- Witness for C4 at a concrete bound state. -/
theorem C4_teardown_resets_handle_witness :
    stBound.hlsRef = some 0 ∧ (cleanup stBound).2 = [Act.destroy 0] :=
  ⟨rfl, (C4_teardown_resets_handle stBound).2.2.1 0 rfl⟩

/-- C5: with autoplay set and the environment rejecting the play attempt,
the handler performs the play attempt, logs the rejection, and still invokes
the manifest-parsed callback with the payload; for every input the handler
returns normally with the manifest-parsed callback invoked exactly once, as
its final action (totality of the embedding: no rejection propagates). -/
theorem C5_autoplay_rejection_swallowed (msg : String) (d : Nat) :
    onManifestParsed true true (Except.error msg) d =
      [Act.playAttempt, Act.logAutoplayError msg, Act.callManifestParsed d] ∧
    ∀ (ap vp : Bool) (pr : Except String Unit),
      ∃ front, onManifestParsed ap vp pr d = front ++ [Act.callManifestParsed d] ∧
        ∀ x, Act.callManifestParsed x ∉ front := by
  constructor
  · rfl
  · intro ap vp pr
    cases ap <;> cases vp <;> rcases pr with e | u <;>
      exact ⟨_, rfl, by simp⟩

/-- C6: the configuration passed to the engine at construction is the
object literal listing the defaults first and then spreading the caller's
mapping, so lookups give the caller's value when the caller binds the key
and the default otherwise; with an empty caller mapping the engine receives
exactly the two defaults `enableWorker = true`, `lowLatencyMode = false`. -/
theorem C6_config_defaults_merge (env : Env) (st : PState) (k : String) (v : Val)
    (h1 : env.videoPresent = true) (h2 : env.hlsSupported = true) :
    ((initHls env st).2.head? = some (Act.construct st.nextId (mergeConfig env.config))) ∧
    (jsLookup env.config k = some v → jsLookup (mergeConfig env.config) k = some v) ∧
    (jsLookup env.config k = none →
      jsLookup (mergeConfig env.config) k = jsLookup defaultEntries k) ∧
    mergeConfig [] = defaultEntries ∧
    jsLookup defaultEntries "enableWorker" = some (Val.bool true) ∧
    jsLookup defaultEntries "lowLatencyMode" = some (Val.bool false) ∧
    (k ≠ "enableWorker" → k ≠ "lowLatencyMode" → jsLookup defaultEntries k = none) := by
  refine ⟨?_, ?_, ?_, ?_, rfl, rfl, ?_⟩
  · simp [initHls, h1, h2]
  · intro hk
    rw [mergeConfig, jsLookup_append, hk]
  · intro hk
    rw [mergeConfig, jsLookup_append, hk]
  · simp [mergeConfig]
  · intro hk1 hk2
    simp [jsLookup, defaultEntries, Ne.symm hk1, Ne.symm hk2]

/-- Witness for C6 at the concrete software-supported environment with an
empty caller configuration. -/
theorem C6_config_defaults_merge_witness :
    envA.videoPresent = true ∧ envA.hlsSupported = true ∧
    (initHls envA initState).2.head? =
      some (Act.construct 0 (mergeConfig [])) :=
  ⟨rfl, rfl, (C6_config_defaults_merge envA initState "x" (Val.bool true) rfl rfl).1⟩

/-- C7: in the software-engine branch the whole bind trace is construction,
attach, load, then the init callback and the ready callback, in that order
and unconditionally — the callbacks fire immediately after the attach and
load commands are dispatched, not gated on any media readiness. -/
theorem C7_ready_fires_after_attach_load (env : Env) (st : PState)
    (h1 : env.videoPresent = true) (h2 : env.hlsSupported = true) :
    (initHls env st).2 =
      [Act.construct st.nextId (mergeConfig env.config),
       Act.attachMedia st.nextId,
       Act.loadSource st.nextId env.src,
       Act.callInit st.nextId,
       Act.callReady st.nextId] := by
  simp [initHls, h1, h2]

/-- Witness for C7 at the concrete software-supported environment. -/
theorem C7_ready_fires_after_attach_load_witness :
    envA.videoPresent = true ∧ envA.hlsSupported = true ∧
    (initHls envA initState).2 =
      [Act.construct 0 (mergeConfig []),
       Act.attachMedia 0,
       Act.loadSource 0 "a.m3u8",
       Act.callInit 0,
       Act.callReady 0] :=
  ⟨rfl, rfl, C7_ready_fires_after_attach_load envA initState rfl rfl⟩

/-- C8 fails on the code in one conjunct: in the unsupported branch no
engine is created and the capability error is logged, but the ExternalHandle
does not remain absent/absent — the video-ref tracking effect populates its
surface field once the surface exists, as this concrete mount shows. -/
theorem C8_handle_not_absent_counterexample :
    (mountCycle envU initState).2 = [Act.logCapabilityError] ∧
    (mountCycle envU initState).1.handle.video = some () ∧
    (mountCycle envU initState).1.handle ≠ { video := none, hls := none } := by
  decide

/-- C8 amended: with software streaming unsupported, the native branch
assigns the source URL directly to the surface and the unsupported branch
only logs a capability error; in both branches no engine instance is
created, the stored engine reference and the ExternalHandle's engine field
are unchanged (absent when starting absent), no exception is raised (the
trace is total), and the handle's surface field — populated by the
video-ref tracking effect — holds the surface. -/
theorem C8_no_engine_without_support (env : Env) (st : PState)
    (h1 : env.videoPresent = true) (h2 : env.hlsSupported = false) :
    (env.canPlayNative = true →
      (mountCycle env st).2 = [Act.setVideoSrc env.src] ∧
      (mountCycle env st).1.videoSrc = some env.src ∧
      (mountCycle env st).1.hlsRef = st.hlsRef ∧
      (mountCycle env st).1.handle.hls = st.handle.hls ∧
      (mountCycle env st).1.handle.video = some ()) ∧
    (env.canPlayNative = false →
      (mountCycle env st).2 = [Act.logCapabilityError] ∧
      (mountCycle env st).1.videoSrc = st.videoSrc ∧
      (mountCycle env st).1.hlsRef = st.hlsRef ∧
      (mountCycle env st).1.handle.hls = st.handle.hls ∧
      (mountCycle env st).1.handle.video = some ()) := by
  constructor <;> intro h3 <;>
    simp [mountCycle, initHls, videoRefEffect, h1, h2, h3]

/-- Witness for the amended C8 at the concrete native-support environment. -/
theorem C8_no_engine_without_support_witness :
    envNative.videoPresent = true ∧ envNative.hlsSupported = false ∧
    envNative.canPlayNative = true ∧
    (mountCycle envNative initState).2 = [Act.setVideoSrc "a.m3u8"] :=
  ⟨rfl, rfl, rfl,
    ((C8_no_engine_without_support envNative initState rfl rfl).1 rfl).1⟩

/-- C9 fails on the code: the rendered element lists `controls={true}` first
and spreads the pass-through props after it, so a caller-supplied `controls`
attribute overrides it — `controls` is not forced on. -/
theorem C9_controls_not_forced_counterexample :
    jsLookup (renderAttrs [("controls", Val.bool false)]) "controls" =
      some (Val.bool false) ∧
    some (Val.bool false) ≠ some (Val.bool true) := by
  decide

/-- C9 amended: the rendered element receives `controls = true` as a default
— it holds whenever the caller does not bind `controls` among the
pass-through attributes — and every caller-supplied pass-through attribute
is received with the caller's value taking precedence. -/
theorem C9_controls_default_on (props : List (String × Val)) (k : String) (v : Val) :
    (jsLookup props "controls" = none →
      jsLookup (renderAttrs props) "controls" = some (Val.bool true)) ∧
    (jsLookup props k = some v → jsLookup (renderAttrs props) k = some v) := by
  have hr : renderAttrs props = [("controls", Val.bool true)] ++ props := rfl
  constructor
  · intro h
    rw [hr, jsLookup_append, h]
    rfl
  · intro h
    rw [hr, jsLookup_append, h]

/-- Witness for the amended C9 at concrete pass-through attributes. -/
theorem C9_controls_default_on_witness :
    jsLookup [("muted", Val.bool true)] "controls" = none ∧
    jsLookup (renderAttrs [("muted", Val.bool true)]) "controls" =
      some (Val.bool true) :=
  ⟨rfl, (C9_controls_default_on [("muted", Val.bool true)] "muted" (Val.bool true)).1 rfl⟩

/-- C10: the destroy step is total and idempotent: with no stored engine it
is a no-op that issues no destroy action, after any destroy the stored
reference is absent, and a second destroy in a row returns the same state
and issues no action. -/
theorem C10_destroy_idempotent (st : PState) :
    (st.hlsRef = none → destroyHls st = (st, [])) ∧
    (destroyHls (destroyHls st).1).1 = (destroyHls st).1 ∧
    (destroyHls (destroyHls st).1).2 = [] ∧
    (destroyHls st).1.hlsRef = none := by
  cases h : st.hlsRef <;> simp [destroyHls, h]

/-- Witness for C10 at the concrete engine-free initial state. -/
theorem C10_destroy_idempotent_witness :
    initState.hlsRef = none ∧ destroyHls initState = (initState, []) :=
  ⟨rfl, (C10_destroy_idempotent initState).1 rfl⟩

end HlsPlayerModel
